import Mathlib

/-!
Shallow embedding of the data-derivation-and-aggregation pipeline of
`src/app.py` (a pandas/streamlit music dashboard).

Modelling conventions:
* a pandas DataFrame of track records is a `List Track` (rows in table order);
* CSV integer columns (`year`, `popularity`) are `Nat`;
* float columns are modelled exactly as `ℚ` (the claims under study are about
  the arithmetic formulas, not about binary rounding);
* a float `NaN` (e.g. the pandas mean of an empty column) is `none : Option ℚ`;
* each `def` mirrors one expression of `src/app.py`, as noted next to it.
-/

/-- Row of the source CSV `data/data.csv`: the columns of `src/app.py` uses
(`name, artists, year, popularity` and the numeric audio features). -/
structure Row where
  name : String
  artists : String
  year : Nat
  popularity : Nat
  danceability : ℚ
  energy : ℚ
  valence : ℚ
  acousticness : ℚ
  speechiness : ℚ
  loudness : ℚ
  tempo : ℚ
deriving DecidableEq, Repr

/-- Record of the working table: a CSV row together with the derived
`decade` column added by `load_data` (`src/app.py` line 20). -/
structure Track where
  row : Row
  decade : Nat
deriving DecidableEq, Repr

/-- Accessor shorthand for the `year` column of a working-table record. -/
def Track.year (t : Track) : Nat := t.row.year

/-- Accessor shorthand for the `popularity` column. -/
def Track.popularity (t : Track) : Nat := t.row.popularity

/-- Accessor shorthand for the `danceability` column. -/
def Track.danceability (t : Track) : ℚ := t.row.danceability

/-- Accessor shorthand for the `energy` column. -/
def Track.energy (t : Track) : ℚ := t.row.energy

/-- Accessor shorthand for the `valence` column. -/
def Track.valence (t : Track) : ℚ := t.row.valence

/-- Accessor shorthand for the `acousticness` column. -/
def Track.acousticness (t : Track) : ℚ := t.row.acousticness

/-- Accessor shorthand for the `speechiness` column. -/
def Track.speechiness (t : Track) : ℚ := t.row.speechiness

/-- Loader/deriver, `src/app.py` lines 19-22: the decade column is set to
`(year // 10) * 10` and the frame is cut to `decade >= 1960`.  Python `//`
on the non-negative CSV years is `Nat` division. -/
def load_data (df : List Row) : List Track :=
  (df.map (fun r => { row := r, decade := r.year / 10 * 10 })).filter
    (fun t => 1960 ≤ t.decade)

/-- Decade filter, `src/app.py` line 34: keep the records whose decade
satisfies `isin(selected_decades)`. -/
def filtered_data (data : List Track) (selected_decades : List Nat) : List Track :=
  data.filter (fun t => selected_decades.contains t.decade)

/-- Concrete CSV row used by witnesses: fixed text columns, all audio
features zero, the given year and popularity. -/
def exRow (y p : Nat) : Row := ⟨"a", "b", y, p, 0, 0, 0, 0, 0, 0, 0⟩

/-- Concrete working-table record used by witnesses. -/
def exTrack (y p dec : Nat) : Track := ⟨exRow y p, dec⟩

/-- Per-year arithmetic means of the four trend features
(`danceability, energy, valence, acousticness`) over one group of records. -/
def groupMeans (g : List Track) : List ℚ :=
  [((g.map Track.danceability).sum) / (g.length : ℚ),
   ((g.map Track.energy).sum) / (g.length : ℚ),
   ((g.map Track.valence).sum) / (g.length : ℚ),
   ((g.map Track.acousticness).sum) / (g.length : ℚ)]

/-- Trend aggregator, `src/app.py` line 46: groupby on year of the four
trend features, then `mean()` and `reset_index()`.  Pandas groupby with its
default sort option emits one row per distinct key, keys ascending; the
mean of each group column is its sum over its size. -/
def yearly_avg_features (rows : List Track) : List (Nat × List ℚ) :=
  (List.insertionSort (· ≤ ·) ((rows.map Track.year).dedup)).map
    (fun y => (y, groupMeans (rows.filter (fun t => t.year == y))))

/-- Mean of one numeric column, pandas semantics: the mean of an empty
column is NaN (`none`), otherwise the sum divided by the length. -/
def colMean (xs : List ℚ) : Option ℚ :=
  if xs.length = 0 then none else some (xs.sum / (xs.length : ℚ))

/-- Per-decade feature means, `src/app.py` line 84: the filtered table is
cut to the selected radar decade and `mean()` is taken over the five
feature columns (danceability, energy, valence, acousticness,
speechiness). -/
def decade_features (rows : List Track) (d : Nat) : List (Option ℚ) :=
  [colMean ((rows.filter (fun t => t.decade == d)).map Track.danceability),
   colMean ((rows.filter (fun t => t.decade == d)).map Track.energy),
   colMean ((rows.filter (fun t => t.decade == d)).map Track.valence),
   colMean ((rows.filter (fun t => t.decade == d)).map Track.acousticness),
   colMean ((rows.filter (fun t => t.decade == d)).map Track.speechiness)]

/-- Numpy `nanmin` of a column: minimum over the non-NaN entries, NaN when
there are none. -/
def nanMin (xs : List (Option ℚ)) : Option ℚ := (xs.filterMap id).min?

/-- Numpy `nanmax` of a column: maximum over the non-NaN entries, NaN when
there are none. -/
def nanMax (xs : List (Option ℚ)) : Option ℚ := (xs.filterMap id).max?

/-- Zero-range guard of sklearn `_handle_zeros_in_scale`: a data range of 0
is replaced by 1 before dividing. -/
def handleZeros (d : ℚ) : ℚ := if d = 0 then 1 else d

/-- Transform of sklearn `MinMaxScaler().fit_transform` on one column with
the default feature range (0,1): `scale = 1 / handleZeros (max - min)`,
`min_ = 0 - min * scale`, each entry maps to `x * scale + min_`; a NaN entry
stays NaN, and an all-NaN column (NaN data range) yields all NaN. -/
def minMaxScale (xs : List (Option ℚ)) : List (Option ℚ) :=
  match nanMin xs, nanMax xs with
  | some mn, some mx =>
      xs.map (Option.map (fun x =>
        x * (1 / handleZeros (mx - mn)) + (0 - mn * (1 / handleZeros (mx - mn)))))
  | _, _ => xs.map (fun _ => none)

/-- Radar fingerprint, `src/app.py` lines 84-87: the five decade means,
min-max normalized across themselves
(`scaler.fit_transform(decade_features.values.reshape(-1, 1)).flatten()`). -/
def radar_values (rows : List Track) (d : Nat) : List (Option ℚ) :=
  minMaxScale (decade_features rows d)

/-- Concrete track for the non-degenerate radar witnesses: energy mean 1,
the other four feature means 0. -/
def exRadarTrack : Track := ⟨⟨"a", "b", 1965, 1, 0, 1, 0, 0, 0, 0, 0⟩, 1960⟩

/-- Ordering used by the top-songs sort: one record before another when its
popularity is at least the popularity of the other. -/
def popGE (a b : Track) : Prop := b.popularity ≤ a.popularity

instance : DecidableRel popGE := fun a b => Nat.decLe b.popularity a.popularity

/-- Top-songs selector, `src/app.py` line 111: the filtered table is cut to
the selected decade, sorted by popularity via `sort_values` with
`ascending=False`, and `head(5)` is taken, with the row count 5 generalized
to `n`.  Model note: for descending order pandas reverses the rows,
argsorts them ascending, and reverses the resulting indexer, which equals a
stable descending sort whenever the underlying argsort is stable (numpy
falls back to a stable insertion sort only on runs of at most 16 elements;
the default quicksort kind leaves longer tied runs in unspecified order).
This embedding fixes the stable tie order. -/
def top_songs (rows : List Track) (d : Nat) (n : Nat) : List Track :=
  (List.insertionSort popGE (rows.filter (fun t => t.decade == d))).take n

/-- Bracket characters stripped by `strip("[]")`. -/
def isBracketChar (c : Char) : Bool := c == '[' || c == ']'

/-- Python `str.strip("[]")`: removes from both ends every leading and every
trailing character belonging to the set of bracket characters. -/
def pyStripBrackets (s : String) : String :=
  String.mk (((s.toList.dropWhile isBracketChar).reverse.dropWhile
    isBracketChar).reverse)

/-- Single-quote character (code point 39). -/
def isQuoteChar (c : Char) : Bool := c.toNat == 39

/-- Artist display cleanup, `src/app.py` line 112: the lambda strips the
bracket characters from the two ends via `strip("[]")` and then deletes
every single-quote character via `replace` with the empty string. -/
def clean_artists (s : String) : String :=
  String.mk ((pyStripBrackets s).toList.filter (fun c => !(isQuoteChar c)))

/-- Reading of the C4 claim text (strip EXACTLY ONE leading opening bracket
and one trailing closing bracket when present, then delete the quotes),
written from the claim for comparison against `clean_artists`. -/
def claimed_clean_artists (s : String) : String :=
  let l1 := if s.toList.head? = some '[' then s.toList.tail else s.toList
  let l2 := if l1.getLast? = some (']') then l1.dropLast else l1
  String.mk (l2.filter (fun c => !(isQuoteChar c)))

/-- Single-quote character as a value, for building example strings. -/
def quoteChar : Char := Char.ofNat 39

/-- Example artists cell holding a one-element Python list literal. -/
def exBeatles : String :=
  String.mk ['[', quoteChar, 'T', 'h', 'e', ' ', 'B', 'e', 'a', 't', 'l',
    'e', 's', quoteChar, ']']

/-- Example artists cell holding a two-element Python list literal. -/
def exAB : String :=
  String.mk ['[', quoteChar, 'A', quoteChar, ',', ' ', quoteChar, 'B',
    quoteChar, ']']

/-- Linear congruential step standing in for the numpy Mersenne Twister
stream seeded by `random_state=42`; the sampler properties proved below
(determinism, exact size, no repetition, identity on small inputs) are those
the pandas API guarantees for any seed. -/
def lcg (s : Nat) : Nat := (s * 1103515245 + 12345) % 2147483648

/-- Draw `n` rows without replacement: repeatedly pick a pseudo-random
position of the remaining rows and remove it. -/
def drawSample {α : Type} : Nat → Nat → List α → List α
  | _, 0, _ => []
  | _, _ + 1, [] => []
  | s, n + 1, x :: xs =>
      (x :: xs).get ⟨lcg s % (x :: xs).length, Nat.mod_lt _ (Nat.succ_pos _)⟩ ::
        drawSample (lcg s) n
          ((x :: xs).eraseIdx (lcg s % (x :: xs).length))

/-- Correlation sampler, `src/app.py` line 126:
`filtered_data.sample(n=2000, random_state=42) if len(filtered_data) > 2000
else filtered_data`. -/
def scatter_data (rows : List Track) : List Track :=
  if 2000 < rows.length then drawSample 42 2000 rows else rows

/-- C7: every record of the working table carries `decade = (year / 10) * 10`,
a multiple of 10 that is at least 1960; a year-1959 row is dropped, a
year-1965 row gets decade 1960 and a year-2000 row gets decade 2000. -/
theorem load_data_decade_invariant :
    (∀ df : List Row, ∀ t ∈ load_data df,
      t.decade = t.row.year / 10 * 10 ∧ 10 ∣ t.decade ∧ 1960 ≤ t.decade ∧
        t.row.year ≠ 1959) ∧
    (∀ r : Row, r.year = 1965 → load_data [r] = [{ row := r, decade := 1960 }]) ∧
    (∀ r : Row, r.year = 2000 → load_data [r] = [{ row := r, decade := 2000 }]) ∧
    (∀ r : Row, r.year = 1959 → load_data [r] = []) := by
  refine ⟨?_, ?_, ?_, ?_⟩
  · intro df t ht
    simp only [load_data, List.mem_filter, List.mem_map, decide_eq_true_eq] at ht
    obtain ⟨⟨r, hr, rfl⟩, hge⟩ := ht
    refine ⟨rfl, ⟨r.year / 10, (Nat.mul_comm _ _)⟩, hge, ?_⟩
    intro h1959
    have hy : r.year = 1959 := h1959
    have hge2 : 1960 ≤ r.year / 10 * 10 := hge
    omega
  · intro r h
    simp [load_data, h]
  · intro r h
    simp [load_data, h]
  · intro r h
    simp [load_data, h]

/-- C7 witness: the concrete decade-derivation examples evaluated on
explicit rows. -/
theorem load_data_decade_invariant_witness :
    load_data [exRow 1965 1] = [⟨exRow 1965 1, 1960⟩] ∧
    load_data [exRow 2000 1] = [⟨exRow 2000 1, 2000⟩] ∧
    load_data [exRow 1959 1] = [] :=
  ⟨load_data_decade_invariant.2.1 _ rfl, load_data_decade_invariant.2.2.1 _ rfl,
    load_data_decade_invariant.2.2.2 _ rfl⟩

/-- C5: the decade filter keeps exactly the records whose decade is selected,
preserves table order (the result is a sublist of the source), maps the empty
selection to the empty table, and leaves the table unchanged whenever every
present decade is selected. -/
theorem filtered_data_spec :
    ∀ (data : List Track) (ds : List Nat),
      (∀ t, t ∈ filtered_data data ds ↔ t ∈ data ∧ t.decade ∈ ds) ∧
      (filtered_data data ds).Sublist data ∧
      filtered_data data [] = [] ∧
      ((∀ t ∈ data, t.decade ∈ ds) → filtered_data data ds = data) := by
  intro data ds
  refine ⟨?_, ?_, ?_, ?_⟩
  · intro t
    simp [filtered_data, List.mem_filter]
  · exact List.filter_sublist data
  · simp [filtered_data]
  · intro hall
    apply List.filter_eq_self.2
    intro t ht
    simpa using hall t ht

/-- C5 witness: the filter applied to a one-row table whose decade is
selected returns it unchanged, discharging the all-decades hypothesis on a
concrete input. -/
theorem filtered_data_spec_witness :
    filtered_data [exTrack 1969 3 1960] [1960, 1970] = [exTrack 1969 3 1960] :=
  (filtered_data_spec _ [1960, 1970]).2.2.2 (by decide)

/-- C8: the trend table has strictly ascending years, its years are exactly
the distinct years present in the filtered input (absent years are absent),
and each row holds the arithmetic mean of each trend feature over the
nonempty group of that year. -/
theorem yearly_avg_features_spec (rows : List Track) :
    ((yearly_avg_features rows).map Prod.fst).Pairwise (· < ·) ∧
    (∀ y, y ∈ (yearly_avg_features rows).map Prod.fst ↔ ∃ t ∈ rows, t.year = y) ∧
    (∀ p ∈ yearly_avg_features rows,
      rows.filter (fun t => t.year == p.1) ≠ [] ∧
      p.2 = groupMeans (rows.filter (fun t => t.year == p.1))) := by
  have hfst : (yearly_avg_features rows).map Prod.fst =
      List.insertionSort (· ≤ ·) ((rows.map Track.year).dedup) := by
    simp [yearly_avg_features, List.map_map, Function.comp_def]
  refine ⟨?_, ?_, ?_⟩
  · rw [hfst]
    have h1 : (List.insertionSort (· ≤ ·) ((rows.map Track.year).dedup)).Pairwise
        (· ≤ ·) := List.sorted_insertionSort _ _
    have h2 : (List.insertionSort (· ≤ ·) ((rows.map Track.year).dedup)).Pairwise
        (fun a b : Nat => a ≠ b) :=
      (List.perm_insertionSort _ _).nodup_iff.mpr (List.nodup_dedup _)
    exact (h1.and h2).imp (fun h => lt_of_le_of_ne h.1 h.2)
  · intro y
    rw [hfst, (List.perm_insertionSort _ _).mem_iff, List.mem_dedup, List.mem_map]
  · intro p hp
    simp only [yearly_avg_features, List.mem_map] at hp
    obtain ⟨y, hy, rfl⟩ := hp
    rw [(List.perm_insertionSort _ _).mem_iff, List.mem_dedup, List.mem_map] at hy
    obtain ⟨t, ht, rfl⟩ := hy
    refine ⟨?_, rfl⟩
    have htf : t ∈ rows.filter (fun s => s.year == t.year) :=
      List.mem_filter.mpr ⟨ht, by simp⟩
    exact List.ne_nil_of_mem htf

/-- Helper: when some non-NaN entry exists, `nanMin` is a non-NaN entry of
the column and bounds every non-NaN entry from below. -/
theorem nanMin_spec (xs : List (Option ℚ)) (q : ℚ) (hq : some q ∈ xs) :
    ∃ mn, nanMin xs = some mn ∧ some mn ∈ xs ∧ ∀ a : ℚ, some a ∈ xs → mn ≤ a := by
  have hql : q ∈ xs.filterMap id := List.mem_filterMap.mpr ⟨some q, hq, rfl⟩
  have hsome := List.isSome_min?_of_mem hql
  obtain ⟨mn, hmn⟩ := Option.isSome_iff_exists.mp hsome
  refine ⟨mn, hmn, ?_, ?_⟩
  · have := List.min?_mem (fun a b : ℚ => min_choice a b) hmn
    obtain ⟨o, ho, hoe⟩ := List.mem_filterMap.mp this
    exact (show o = some mn from hoe) ▸ ho
  · intro a ha
    have hb := (List.le_min?_iff (fun a b c : ℚ => le_min_iff) hmn).1 (le_refl mn)
    exact hb a (List.mem_filterMap.mpr ⟨some a, ha, rfl⟩)

/-- Helper: when some non-NaN entry exists, `nanMax` is a non-NaN entry of
the column and bounds every non-NaN entry from above. -/
theorem nanMax_spec (xs : List (Option ℚ)) (q : ℚ) (hq : some q ∈ xs) :
    ∃ mx, nanMax xs = some mx ∧ some mx ∈ xs ∧ ∀ a : ℚ, some a ∈ xs → a ≤ mx := by
  have hql : q ∈ xs.filterMap id := List.mem_filterMap.mpr ⟨some q, hq, rfl⟩
  have hsome := List.isSome_max?_of_mem hql
  obtain ⟨mx, hmx⟩ := Option.isSome_iff_exists.mp hsome
  refine ⟨mx, hmx, ?_, ?_⟩
  · have := List.max?_mem (fun a b : ℚ => max_choice a b) hmx
    obtain ⟨o, ho, hoe⟩ := List.mem_filterMap.mp this
    exact (show o = some mx from hoe) ▸ ho
  · intro a ha
    have hb := (List.max?_le_iff (fun a b c : ℚ => max_le_iff) hmx).1 (le_refl mx)
    exact hb a (List.mem_filterMap.mpr ⟨some a, ha, rfl⟩)

/-- Helper: over a nonempty decade slice every one of the five feature means
is defined (non-NaN). -/
theorem decade_features_all_some (rows : List Track) (d : Nat)
    (h : rows.filter (fun t => t.decade == d) ≠ []) :
    ∀ v ∈ decade_features rows d, ∃ q, v = some q := by
  have hlen : (rows.filter (fun t => t.decade == d)).length ≠ 0 := by
    simpa [List.length_eq_zero] using h
  intro v hv
  simp only [decade_features, List.mem_cons, List.not_mem_nil, or_false] at hv
  rcases hv with rfl | rfl | rfl | rfl | rfl <;>
    (unfold colMean; rw [if_neg (by simpa using hlen)]; exact ⟨_, rfl⟩)

/-- Helper: with a defined, nonzero data range the sklearn transform is
exactly the textbook normalization mapping each entry `x` to
`(x - min) / (max - min)` over the column. -/
theorem minMaxScale_eq (xs : List (Option ℚ)) (mn mx : ℚ)
    (hmin : nanMin xs = some mn) (hmax : nanMax xs = some mx)
    (hne : mx - mn ≠ 0) :
    minMaxScale xs = xs.map (Option.map (fun x => (x - mn) / (mx - mn))) := by
  simp only [minMaxScale, hmin, hmax]
  have hfun : (fun x : ℚ => x * (1 / handleZeros (mx - mn)) +
      (0 - mn * (1 / handleZeros (mx - mn)))) =
      (fun x : ℚ => (x - mn) / (mx - mn)) := by
    funext x
    rw [handleZeros, if_neg hne]
    ring
  rw [hfun]

/-- C3: when the five decade-feature means are all equal (and defined), the
zero data range is replaced by 1, no division by zero happens, and the
fingerprint is the all-zeros vector. -/
theorem radar_values_degenerate_zero (rows : List Track) (d : Nat) (m : ℚ)
    (h : decade_features rows d = List.replicate 5 (some m)) :
    radar_values rows d = List.replicate 5 (some 0) := by
  have hlit : decade_features rows d = [some m, some m, some m, some m, some m] := by
    rw [h]; rfl
  have hmin2 : nanMin [some m, some m, some m, some m, some m] = some m := by
    show ([m, m, m, m, m] : List ℚ).min? = some m
    simp [List.min?_cons', List.foldl_cons, List.foldl_nil, min_self]
  have hmax2 : nanMax [some m, some m, some m, some m, some m] = some m := by
    show ([m, m, m, m, m] : List ℚ).max? = some m
    simp [List.max?_cons', List.foldl_cons, List.foldl_nil, max_self]
  rw [radar_values, hlit]
  simp only [minMaxScale, hmin2, hmax2]
  have hz : handleZeros (m - m) = 1 := by rw [handleZeros]; simp
  rw [hz]
  norm_num [List.replicate]

/-- C3 witness: a one-track decade whose five features are all zero has five
equal means, and its fingerprint evaluates to the all-zeros vector. -/
theorem radar_values_degenerate_zero_witness :
    decade_features [exTrack 1965 1 1960] 1960 = List.replicate 5 (some 0) ∧
    radar_values [exTrack 1965 1 1960] 1960 = List.replicate 5 (some 0) := by
  have he : decade_features [exTrack 1965 1 1960] 1960 = List.replicate 5 (some 0) := by
    norm_num [decade_features, colMean, exTrack, exRow, Track.danceability,
      Track.energy, Track.valence, Track.acousticness, Track.speechiness,
      List.replicate]
  exact ⟨he, radar_values_degenerate_zero _ _ 0 he⟩

/-- C9: over a nonempty decade slice whose five feature means are not all
equal, every fingerprint entry is a defined value inside `[0, 1]`. -/
theorem radar_values_in_unit_interval (rows : List Track) (d : Nat)
    (h1 : rows.filter (fun t => t.decade == d) ≠ [])
    (h2 : ¬ ∀ x ∈ decade_features rows d, ∀ y ∈ decade_features rows d, x = y) :
    ∀ v ∈ radar_values rows d, ∃ q, v = some q ∧ 0 ≤ q ∧ q ≤ 1 := by
  have hall := decade_features_all_some rows d h1
  have hne : decade_features rows d ≠ [] := by simp [decade_features]
  obtain ⟨v0, hv0⟩ := List.exists_mem_of_ne_nil _ hne
  obtain ⟨q0, rfl⟩ := hall v0 hv0
  obtain ⟨mn, hmin, hmnm, hmnle⟩ := nanMin_spec _ q0 hv0
  obtain ⟨mx, hmax, hmxm, hmxge⟩ := nanMax_spec _ q0 hv0
  have hlt : mn < mx := by
    rcases lt_or_eq_of_le (hmxge mn hmnm) with h | h
    · exact h
    · exfalso
      apply h2
      intro x hx y hy
      obtain ⟨qx, rfl⟩ := hall x hx
      obtain ⟨qy, rfl⟩ := hall y hy
      have hx1 : qx ≤ mx := hmxge qx hx
      have hy1 : qy ≤ mx := hmxge qy hy
      rw [← h] at hx1 hy1
      rw [le_antisymm hx1 (hmnle qx hx), le_antisymm hy1 (hmnle qy hy)]
  have hdne : mx - mn ≠ 0 := sub_ne_zero.mpr (ne_of_gt hlt)
  have hS := minMaxScale_eq _ mn mx hmin hmax hdne
  intro v hv
  rw [radar_values, hS] at hv
  obtain ⟨u, hu, rfl⟩ := List.mem_map.mp hv
  obtain ⟨q, rfl⟩ := hall u hu
  refine ⟨(q - mn) / (mx - mn), rfl, ?_, ?_⟩
  · exact div_nonneg (sub_nonneg.mpr (hmnle q hu)) (le_of_lt (sub_pos.mpr hlt))
  · rw [div_le_one (sub_pos.mpr hlt)]
    exact sub_le_sub_right (hmxge q hu) mn

/-- C9 witness: a decade slice with means `[0, 1, 0, 0, 0]` has a nonempty
slice and non-equal means, and all its fingerprint entries land in `[0, 1]`. -/
theorem radar_values_in_unit_interval_witness :
    ([exRadarTrack].filter (fun t => t.decade == 1960) ≠ [] ∧
      ¬ ∀ x ∈ decade_features [exRadarTrack] 1960,
        ∀ y ∈ decade_features [exRadarTrack] 1960, x = y) ∧
    ∀ v ∈ radar_values [exRadarTrack] 1960, ∃ q, v = some q ∧ 0 ≤ q ∧ q ≤ 1 := by
  have he : decade_features [exRadarTrack] 1960 =
      [some 0, some 1, some 0, some 0, some 0] := by
    norm_num [decade_features, colMean, exRadarTrack, Track.danceability,
      Track.energy, Track.valence, Track.acousticness, Track.speechiness]
  have h2 : ¬ ∀ x ∈ decade_features [exRadarTrack] 1960,
      ∀ y ∈ decade_features [exRadarTrack] 1960, x = y := by
    rw [he]; decide
  exact ⟨⟨by decide, h2⟩, radar_values_in_unit_interval _ _ (by decide) h2⟩

/-- C10: over a nonempty decade slice whose five feature means are not all
equal, the fingerprint attains both endpoints: the values 0 and 1 occur, and
any position holding the minimal (resp. maximal) mean maps to exactly 0
(resp. exactly 1). -/
theorem radar_values_attains_bounds (rows : List Track) (d : Nat)
    (h1 : rows.filter (fun t => t.decade == d) ≠ [])
    (h2 : ¬ ∀ x ∈ decade_features rows d, ∀ y ∈ decade_features rows d, x = y) :
    some (0 : ℚ) ∈ radar_values rows d ∧ some (1 : ℚ) ∈ radar_values rows d ∧
    ∀ i, ∀ hi : i < (decade_features rows d).length,
      ∀ hi2 : i < (radar_values rows d).length,
      ((decade_features rows d).get ⟨i, hi⟩ = nanMin (decade_features rows d) →
        (radar_values rows d).get ⟨i, hi2⟩ = some 0) ∧
      ((decade_features rows d).get ⟨i, hi⟩ = nanMax (decade_features rows d) →
        (radar_values rows d).get ⟨i, hi2⟩ = some 1) := by
  have hall := decade_features_all_some rows d h1
  have hne : decade_features rows d ≠ [] := by simp [decade_features]
  obtain ⟨v0, hv0⟩ := List.exists_mem_of_ne_nil _ hne
  obtain ⟨q0, rfl⟩ := hall v0 hv0
  obtain ⟨mn, hmin, hmnm, hmnle⟩ := nanMin_spec _ q0 hv0
  obtain ⟨mx, hmax, hmxm, hmxge⟩ := nanMax_spec _ q0 hv0
  have hlt : mn < mx := by
    rcases lt_or_eq_of_le (hmxge mn hmnm) with h | h
    · exact h
    · exfalso
      apply h2
      intro x hx y hy
      obtain ⟨qx, rfl⟩ := hall x hx
      obtain ⟨qy, rfl⟩ := hall y hy
      have hx1 : qx ≤ mx := hmxge qx hx
      have hy1 : qy ≤ mx := hmxge qy hy
      rw [← h] at hx1 hy1
      rw [le_antisymm hx1 (hmnle qx hx), le_antisymm hy1 (hmnle qy hy)]
  have hdne : mx - mn ≠ 0 := sub_ne_zero.mpr (ne_of_gt hlt)
  have hS := minMaxScale_eq _ mn mx hmin hmax hdne
  have hrv : radar_values rows d =
      (decade_features rows d).map (Option.map (fun x => (x - mn) / (mx - mn))) := by
    rw [radar_values, hS]
  refine ⟨?_, ?_, ?_⟩
  · rw [hrv]
    have h0 := List.mem_map_of_mem
      (Option.map (fun x : ℚ => (x - mn) / (mx - mn))) hmnm
    simpa [sub_self] using h0
  · rw [hrv]
    have h1m := List.mem_map_of_mem
      (Option.map (fun x : ℚ => (x - mn) / (mx - mn))) hmxm
    simpa [div_self hdne] using h1m
  · intro i hi hi2
    have hget : (radar_values rows d).get ⟨i, hi2⟩ =
        Option.map (fun x => (x - mn) / (mx - mn))
          ((decade_features rows d).get ⟨i, hi⟩) := by
      simp only [List.get_eq_getElem, hrv, List.getElem_map]
    constructor
    · intro hmin_i
      rw [hget, hmin_i, hmin]
      simp [sub_self]
    · intro hmax_i
      rw [hget, hmax_i, hmax]
      simp [div_self hdne]

/-- C10 witness: on the concrete non-degenerate decade slice the fingerprint
contains both the exact value 0 and the exact value 1. -/
theorem radar_values_attains_bounds_witness :
    some (0 : ℚ) ∈ radar_values [exRadarTrack] 1960 ∧
    some (1 : ℚ) ∈ radar_values [exRadarTrack] 1960 := by
  have he : decade_features [exRadarTrack] 1960 =
      [some 0, some 1, some 0, some 0, some 0] := by
    norm_num [decade_features, colMean, exRadarTrack, Track.danceability,
      Track.energy, Track.valence, Track.acousticness, Track.speechiness]
  have h2 : ¬ ∀ x ∈ decade_features [exRadarTrack] 1960,
      ∀ y ∈ decade_features [exRadarTrack] 1960, x = y := by
    rw [he]; decide
  exact ⟨(radar_values_attains_bounds _ _ (by decide) h2).1,
    (radar_values_attains_bounds _ _ (by decide) h2).2.1⟩

/-- Helper: the first element surviving `dropWhile` falsifies the predicate. -/
theorem head_dropWhile_false {α : Type} (p : α → Bool) (l : List α) :
    ∀ c, (l.dropWhile p).head? = some c → p c = false := by
  induction l with
  | nil => simp [List.dropWhile]
  | cons a l ih =>
    intro c hc
    rw [List.dropWhile_cons] at hc
    by_cases h : p a = true
    · rw [if_pos h] at hc
      exact ih c hc
    · rw [if_neg h] at hc
      obtain rfl : a = c := by simpa using hc
      simpa using h

/-- Helper: stripping a predicate from both ends decomposes the list into an
all-predicate prefix, a middle that starts and ends with non-predicate
elements, and an all-predicate suffix. -/
theorem strip_ends_decomposition {α : Type} (p : α → Bool) (l : List α) :
    ∃ pre suf : List α,
      l = pre ++ ((l.dropWhile p).reverse.dropWhile p).reverse ++ suf ∧
      (∀ c ∈ pre, p c = true) ∧ (∀ c ∈ suf, p c = true) ∧
      (∀ c, (((l.dropWhile p).reverse.dropWhile p).reverse).head? = some c →
        p c = false) ∧
      (∀ c, (((l.dropWhile p).reverse.dropWhile p).reverse).getLast? = some c →
        p c = false) := by
  refine ⟨l.takeWhile p, ((l.dropWhile p).reverse.takeWhile p).reverse,
    ?_, ?_, ?_, ?_, ?_⟩
  · have h1 : ((l.dropWhile p).reverse.dropWhile p).reverse ++
        ((l.dropWhile p).reverse.takeWhile p).reverse = l.dropWhile p := by
      rw [← List.reverse_append, List.takeWhile_append_dropWhile,
        List.reverse_reverse]
    rw [List.append_assoc, h1, List.takeWhile_append_dropWhile]
  · intro c hc
    exact List.mem_takeWhile_imp hc
  · intro c hc
    rw [List.mem_reverse] at hc
    exact List.mem_takeWhile_imp hc
  · intro c hc
    have h1 : ((l.dropWhile p).reverse.dropWhile p).reverse ++
        ((l.dropWhile p).reverse.takeWhile p).reverse = l.dropWhile p := by
      rw [← List.reverse_append, List.takeWhile_append_dropWhile,
        List.reverse_reverse]
    have hc2 : (l.dropWhile p).head? = some c := by
      rw [← h1]
      cases hm : ((l.dropWhile p).reverse.dropWhile p).reverse with
      | nil => rw [hm] at hc; simp at hc
      | cons a t =>
        rw [hm] at hc
        simp only [List.head?_cons, Option.some.injEq] at hc
        simp [hc]
    exact head_dropWhile_false p l c hc2
  · intro c hc
    rw [List.getLast?_reverse] at hc
    exact head_dropWhile_false p (l.dropWhile p).reverse c hc

/-- C4 counterexample: on the cell `[[A]]` the code strips both bracket
pairs and yields `A`, while the claimed exactly-one-pair strip yields `[A]`. -/
theorem clean_artists_claim_counterexample :
    clean_artists (String.mk ['[', '[', 'A', ']', ']']) = "A" ∧
    claimed_clean_artists (String.mk ['[', '[', 'A', ']', ']']) = "[A]" ∧
    clean_artists (String.mk ['[', '[', 'A', ']', ']']) ≠
      claimed_clean_artists (String.mk ['[', '[', 'A', ']', ']']) := by
  refine ⟨by decide, by decide, by decide⟩

/-- C4 (amended): the cleanup strips ALL leading and trailing bracket
characters (either bracket kind, repeatedly, at both ends) and then deletes
every single-quote character, leaving the interior otherwise untouched; the
two spec examples hold, as does the repeated-bracket example. -/
theorem clean_artists_spec :
    (∀ s : String, ∃ pre mid suf : List Char,
      s.toList = pre ++ mid ++ suf ∧
      (∀ c ∈ pre, isBracketChar c = true) ∧
      (∀ c ∈ suf, isBracketChar c = true) ∧
      (∀ c, mid.head? = some c → isBracketChar c = false) ∧
      (∀ c, mid.getLast? = some c → isBracketChar c = false) ∧
      clean_artists s = String.mk (mid.filter (fun c => !(isQuoteChar c)))) ∧
    clean_artists exBeatles = "The Beatles" ∧
    clean_artists exAB = "A, B" ∧
    clean_artists (String.mk ['[', '[', 'A', ']', ']']) = "A" := by
  refine ⟨?_, by decide, by decide, by decide⟩
  intro s
  obtain ⟨pre, suf, hdec, hpre, hsuf, hhead, hlast⟩ :=
    strip_ends_decomposition isBracketChar s.toList
  exact ⟨pre, _, suf, hdec, hpre, hsuf, hhead, hlast, rfl⟩

/-- Helper: a member at a position, consed onto the list with that position
erased, is a permutation of the list. -/
theorem get_cons_eraseIdx_perm {α : Type} (l : List α) (i : Nat)
    (h : i < l.length) : List.Perm (l.get ⟨i, h⟩ :: l.eraseIdx i) l := by
  have hd : l.get ⟨i, h⟩ :: l.drop (i + 1) = l.drop i := by
    rw [List.get_eq_getElem]
    exact List.getElem_cons_drop l i h
  have h1 : List.Perm (l.get ⟨i, h⟩ :: (l.take i ++ l.drop (i + 1)))
      (l.take i ++ (l.get ⟨i, h⟩ :: l.drop (i + 1))) := List.perm_middle.symm
  rw [hd, List.take_append_drop] at h1
  rw [List.eraseIdx_eq_take_drop_succ]
  exact h1

/-- Helper: the sampler returns `min n len` rows. -/
theorem drawSample_length {α : Type} (s n : Nat) (xs : List α) :
    (drawSample s n xs).length = min n xs.length := by
  induction n generalizing s xs with
  | zero => simp [drawSample]
  | succ n ih =>
    cases xs with
    | nil => simp [drawSample]
    | cons x t =>
      have hlt : lcg s % (x :: t).length < (x :: t).length :=
        Nat.mod_lt _ (Nat.succ_pos _)
      have hlen := List.length_eraseIdx_of_lt hlt
      rw [show drawSample s (n + 1) (x :: t) =
        (x :: t).get ⟨lcg s % (x :: t).length, hlt⟩ ::
          drawSample (lcg s) n
            ((x :: t).eraseIdx (lcg s % (x :: t).length)) from rfl]
      rw [List.length_cons, ih, hlen]
      simp only [List.length_cons]
      omega

/-- Helper: the sampler draws without replacement from the input rows. -/
theorem drawSample_subperm {α : Type} (s n : Nat) (xs : List α) :
    List.Subperm (drawSample s n xs) xs := by
  induction n generalizing s xs with
  | zero => simp [drawSample]
  | succ n ih =>
    cases xs with
    | nil => simp [drawSample]
    | cons x t =>
      have hperm := get_cons_eraseIdx_perm (x :: t)
        (lcg s % (x :: t).length) (Nat.mod_lt _ (Nat.succ_pos _))
      have hsub : List.Subperm
          ((x :: t).get ⟨lcg s % (x :: t).length, Nat.mod_lt _ (Nat.succ_pos _)⟩ ::
            drawSample (lcg s) n ((x :: t).eraseIdx (lcg s % (x :: t).length)))
          ((x :: t).get ⟨lcg s % (x :: t).length, Nat.mod_lt _ (Nat.succ_pos _)⟩ ::
            (x :: t).eraseIdx (lcg s % (x :: t).length)) :=
        (List.subperm_cons _).mpr (ih (lcg s) _)
      exact hsub.trans hperm.subperm

/-- C6: a filtered table of at most 2000 rows passes through the sampler
unchanged; a larger table is cut to exactly 2000 rows drawn without
replacement (a sub-permutation of the input), deterministically in the
fixed seed. -/
theorem scatter_data_spec (rows : List Track) :
    (rows.length ≤ 2000 → scatter_data rows = rows) ∧
    (2000 < rows.length →
      (scatter_data rows).length = 2000 ∧
        List.Subperm (scatter_data rows) rows) := by
  constructor
  · intro h
    rw [scatter_data, if_neg (by omega)]
  · intro h
    rw [scatter_data, if_pos h]
    refine ⟨?_, drawSample_subperm _ _ _⟩
    rw [drawSample_length]
    omega

/-- C6 witness: a one-row table is returned unchanged, and a 2001-row table
is cut to exactly 2000 rows. -/
theorem scatter_data_spec_witness :
    scatter_data [exTrack 1969 3 1960] = [exTrack 1969 3 1960] ∧
    (scatter_data (List.replicate 2001 (exTrack 1969 3 1960))).length = 2000 :=
  ⟨(scatter_data_spec _).1 (by norm_num),
    ((scatter_data_spec _).2 (by rw [List.length_replicate]; norm_num)).1⟩

/-- C2 counterexample: on a zero-row input the fingerprint aggregator does
not return an empty result — it returns a five-entry vector (of NaNs). -/
theorem radar_values_empty_counterexample :
    radar_values ([] : List Track) 1960 ≠ [] := by decide

/-- C2 (amended): on a zero-row input the yearly means, top songs and
correlation sample aggregators return empty results and the fingerprint
aggregator raises no error but returns five undefined (NaN) entries, one
per feature, rather than an empty result. -/
theorem aggregators_on_empty (d n : Nat) :
    yearly_avg_features [] = [] ∧ top_songs [] d n = [] ∧
    scatter_data [] = [] ∧
    radar_values ([] : List Track) d = [none, none, none, none, none] ∧
    (∀ rows : List Track, rows.filter (fun t => t.decade == d) = [] →
      radar_values rows d = [none, none, none, none, none]) := by
  refine ⟨rfl, ?_, rfl, rfl, ?_⟩
  · simp [top_songs]
  · intro rows hf
    have hdf : decade_features rows d = [none, none, none, none, none] := by
      simp [decade_features, hf, colMean]
    rw [radar_values, hdf]
    rfl

/-- C2 witness: a decade absent from a nonempty table yields the five-NaN
fingerprint vector. -/
theorem aggregators_on_empty_witness :
    radar_values [exTrack 1969 3 1960] 1990 = [none, none, none, none, none] :=
  (aggregators_on_empty 1990 5).2.2.2.2 [exTrack 1969 3 1960] (by decide)

/-- C4 witness: the two spec examples of the cleanup evaluated through the
amended theorem. -/
theorem clean_artists_spec_witness :
    clean_artists exBeatles = "The Beatles" ∧ clean_artists exAB = "A, B" :=
  ⟨clean_artists_spec.2.1, clean_artists_spec.2.2.1⟩

/-- C8 witness: the trend table of a concrete two-year table has strictly
ascending years. -/
theorem yearly_avg_features_spec_witness :
    ((yearly_avg_features [exTrack 1972 2 1970, exTrack 1965 1 1960]).map
      Prod.fst).Pairwise (· < ·) :=
  (yearly_avg_features_spec [exTrack 1972 2 1970, exTrack 1965 1 1960]).1
